import Mathlib

/-!
Shallow embedding of the todo-application backend (Convex endpoint layer,
data-access layer, validation helpers and rate-limiter configuration).

Tables are modelled as append-ordered lists inside a single `Store`;
document ids are drawn from a monotone counter `nextId`, matching the
persistence collaborator's unique-id generation.  Index reads that the
source performs with a descending order are modelled as `filter` followed
by `reverse`, since rows are appended in creation order.  Timestamps
(`Date.now()`) are passed explicitly as a `now : Nat` argument.
-/

namespace Todo

/-! ## Data model (convex/schema, as used by the db layer) -/

inductive TaskStatus
| todo
| in_progress
| completed
deriving DecidableEq, Repr

inductive TaskPriority
| low
| medium
| high
deriving DecidableEq, Repr

inductive CommentType
| user_note
| ai_suggestion
| ai_insight
deriving DecidableEq, Repr

inductive ActivityAction
| created
| updated
| completed
| deleted
| status_changed
| priority_changed
deriving DecidableEq, Repr

/-- The untyped `oldValue` / `newValue` payloads of activity records,
modelled as a closed variant of the shapes the endpoints actually store. -/
inductive ActValue
| vStatus (s : TaskStatus)
| vPriority (p : TaskPriority)
| vCreated (title : String) (priority : TaskPriority)
| vDeleted (title : String)
deriving DecidableEq, Repr

structure Task where
id : Nat
userId : Nat
title : String
description : Option String
status : TaskStatus
priority : TaskPriority
dueDate : Option Nat
completedAt : Option Nat
order : Int
createdAt : Nat
updatedAt : Nat
deriving DecidableEq, Repr

structure Label where
id : Nat
userId : Nat
name : String
color : String
createdAt : Nat
deriving DecidableEq, Repr

structure TaskLabel where
id : Nat
taskId : Nat
labelId : Nat
userId : Nat
createdAt : Nat
deriving DecidableEq, Repr

structure TaskComment where
id : Nat
taskId : Nat
userId : Nat
content : String
ctype : CommentType
createdAt : Nat
deriving DecidableEq, Repr

structure TaskActivity where
id : Nat
userId : Nat
taskId : Nat
action : ActivityAction
oldValue : Option ActValue
newValue : Option ActValue
createdAt : Nat
deriving DecidableEq, Repr

inductive ThreadStatus
| active
| archived
deriving DecidableEq, Repr

structure Thread where
id : Nat
userId : Nat
title : Option String
status : ThreadStatus
createdAt : Nat
updatedAt : Nat
deriving DecidableEq, Repr

structure Store where
tasks : List Task
labels : List Label
taskLabels : List TaskLabel
taskComments : List TaskComment
taskActivity : List TaskActivity
threads : List Thread
nextId : Nat
deriving DecidableEq, Repr

/-! ## Error taxonomy (spec section 7; the source throws message-tagged
errors which the spec classifies into this taxonomy) -/

inductive Err
| unauthenticated
| rateLimited (retryAfter : Nat)
| notFound
| forbidden
| invalidArgument
deriving DecidableEq, Repr

/-! ## Rate limiter collaborator

`@convex-dev/rate-limiter` is an external component; endpoints consult it
through `rateLimiter.limit(ctx, opName,.key)`.  We model the collaborator
as an oracle mapping (operation name, caller id) to a status. -/

structure RLStatus where
ok : Bool
retryAfter : Nat
deriving DecidableEq, Repr

def RateLimiter := String → Nat → RLStatus

/-- An oracle whose every bucket has tokens available. -/
def rlAllow : RateLimiter := fun _ _ => { ok := true, retryAfter := 0 }

/-- An oracle whose every bucket is exhausted (retry after 1000 ms). -/
def rlDeny : RateLimiter := fun _ _ => { ok := false, retryAfter := 1000 }

structure RLConfig where
rate : Nat
period : Nat
capacity : Nat
deriving DecidableEq, Repr

def MINUTE : Nat := 60000

def HOUR : Nat := 3600000

/-- The token-bucket configuration of convex/rateLimiter.ts: the complete
list of operation names registered with the rate-limiter component. -/
def rateLimiterConfig : List (String × RLConfig) :=
[("createTask", { rate := 30, period := MINUTE, capacity := 5 }),
 ("updateTask", { rate := 60, period := MINUTE, capacity := 10 }),
 ("deleteTask", { rate := 30, period := MINUTE, capacity := 5 }),
 ("createLabel", { rate := 20, period := MINUTE, capacity := 3 }),
 ("updateLabel", { rate := 30, period := MINUTE, capacity := 5 }),
 ("deleteLabel", { rate := 20, period := MINUTE, capacity := 3 }),
 ("addLabelToTask", { rate := 50, period := MINUTE, capacity := 10 }),
 ("removeLabelFromTask", { rate := 50, period := MINUTE, capacity := 10 }),
 ("createComment", { rate := 30, period := MINUTE, capacity := 5 }),
 ("deleteComment", { rate := 30, period := MINUTE, capacity := 5 }),
 ("updatePreferences", { rate := 20, period := MINUTE, capacity := 5 }),
 ("createThread", { rate := 10, period := HOUR, capacity := 2 }),
 ("sendMessage", { rate := 30, period := HOUR, capacity := 5 }),
 ("deleteThread", { rate := 20, period := MINUTE, capacity := 3 })]

/-! ## Validation helpers (convex/helpers/validation.ts) -/

/-- JS String.prototype.trim: drop leading and trailing whitespace.
Modelled over the character list so that it reduces in the kernel. -/
def jsTrim (s : String) : String :=
String.mk (((s.data.dropWhile Char.isWhitespace).reverse.dropWhile
  Char.isWhitespace).reverse)

def sanitizeString (input : String) : String := jsTrim input

def isValidTaskTitle (title : String) : Bool :=
decide (0 < (jsTrim title).length ∧ (jsTrim title).length ≤ 200)

def isValidTaskDescription : Option String → Bool
| none => true
| some d => if d = "" then true else decide (d.length ≤ 2000)

def isValidLabelName (name : String) : Bool :=
decide (0 < (jsTrim name).length ∧ (jsTrim name).length ≤ 50)

def isHexDigit (c : Char) : Bool :=
(decide ('0' ≤ c) && decide (c ≤ '9')) ||
(decide ('a' ≤ c) && decide (c ≤ 'f')) ||
(decide ('A' ≤ c) && decide (c ≤ 'F'))

/-- The regex /^#([A-Fa-f0-9]\x7b6\x7d|[A-Fa-f0-9]\x7b3\x7d)$/ of
isValidHexColor. -/
def isValidHexColor (color : String) : Bool :=
match color.data with
| '#' :: rest =>
  (decide (rest.length = 6) || decide (rest.length = 3)) && rest.all isHexDigit
| _ => false

def isValidThreadTitle : Option String → Bool
| none => true
| some t =>
  if t = "" then true
  else decide (0 < (jsTrim t).length ∧ (jsTrim t).length ≤ 200)

/-! ## Data-access layer: tasks (convex/db/tasks.ts) -/

structure CreateTaskArgs where
userId : Nat
title : String
description : Option String
status : TaskStatus
priority : TaskPriority
dueDate : Option Nat
order : Int
deriving Repr

def createTask (s : Store) (a : CreateTaskArgs) (now : Nat) : Nat × Store :=
let t : Task :=
  { id := s.nextId, userId := a.userId, title := a.title,
    description := a.description, status := a.status, priority := a.priority,
    dueDate := a.dueDate, completedAt := none, order := a.order,
    createdAt := now, updatedAt := now }
(s.nextId, { s with tasks := s.tasks ++ [t], nextId := s.nextId + 1 })

def getTaskById (s : Store) (id : Nat) : Option Task :=
s.tasks.find? (fun t => t.id == id)

/-- A `ctx.db.patch` payload for a task row.  A field holds `none` when the
patch does not mention it; `completedAt` additionally distinguishes
"patched to a value" (`some (some t)`) from "patched to undefined", which
removes the field (`some none`). -/
structure TaskPatch where
title : Option String := none
description : Option String := none
status : Option TaskStatus := none
priority : Option TaskPriority := none
dueDate : Option Nat := none
order : Option Int := none
completedAt : Option (Option Nat) := none
deriving DecidableEq, Repr

def applyTaskPatch (t : Task) (p : TaskPatch) (now : Nat) : Task :=
{ t with
  title := p.title.getD t.title,
  description := match p.description with | some d => some d | none => t.description,
  status := p.status.getD t.status,
  priority := p.priority.getD t.priority,
  dueDate := match p.dueDate with | some d => some d | none => t.dueDate,
  order := p.order.getD t.order,
  completedAt := p.completedAt.getD t.completedAt,
  updatedAt := now }

def updateTask (s : Store) (id : Nat) (p : TaskPatch) (now : Nat) : Store :=
{ s with tasks := s.tasks.map (fun t => if t.id = id then applyTaskPatch t p now else t) }

def deleteTask (s : Store) (id : Nat) : Store :=
{ s with tasks := s.tasks.filter (fun t => t.id ≠ id) }

def getTasksByUserAndStatus (s : Store) (userId : Nat) (st : TaskStatus) : List Task :=
s.tasks.filter (fun t => t.userId == userId && t.status == st)

def getMaxOrderForStatus (s : Store) (userId : Nat) (st : TaskStatus) : Int :=
let tasks := getTasksByUserAndStatus s userId st
match tasks with
| [] => 0
| t :: ts => (ts.map Task.order).foldl max t.order

/-! ## Data-access layer: taskActivity (convex/db/taskActivity.ts) -/

def createTaskActivity (s : Store) (userId taskId : Nat) (action : ActivityAction)
    (oldValue newValue : Option ActValue) (now : Nat) : Nat × Store :=
let rec0 : TaskActivity :=
  { id := s.nextId, userId := userId, taskId := taskId, action := action,
    oldValue := oldValue, newValue := newValue, createdAt := now }
(s.nextId, { s with taskActivity := s.taskActivity ++ [rec0], nextId := s.nextId + 1 })

def getActivityByTask (s : Store) (taskId : Nat) : List TaskActivity :=
(s.taskActivity.filter (fun r => r.taskId == taskId)).reverse

def getActivityByUser (s : Store) (userId : Nat) : List TaskActivity :=
(s.taskActivity.filter (fun r => r.userId == userId)).reverse

/-- getRecentActivityByUser(ctx, userId, limit = 20): the TS default
parameter applies when the caller passes undefined. -/
def getRecentActivityByUser (s : Store) (userId : Nat) (limit : Option Nat) :
    List TaskActivity :=
(getActivityByUser s userId).take (limit.getD 20)

/-! ## Data-access layer: taskLabels (convex/db/taskLabels.ts) -/

def createTaskLabel (s : Store) (taskId labelId userId : Nat) (now : Nat) : Nat × Store :=
let tl : TaskLabel :=
  { id := s.nextId, taskId := taskId, labelId := labelId, userId := userId,
    createdAt := now }
(s.nextId, { s with taskLabels := s.taskLabels ++ [tl], nextId := s.nextId + 1 })

def taskLabelExists (s : Store) (taskId labelId : Nat) : Bool :=
(s.taskLabels.filter (fun tl => tl.taskId == taskId)).any
  (fun tl => tl.labelId == labelId)

/-- deleteTaskLabel: collect the by_task rows, delete the first one whose
labelId matches (a no-op when none matches). -/
def deleteTaskLabel (s : Store) (taskId labelId : Nat) : Store :=
let byTask := s.taskLabels.filter (fun tl => tl.taskId == taskId)
match byTask.find? (fun tl => tl.labelId == labelId) with
| some toDelete => { s with taskLabels := s.taskLabels.filter (fun tl => tl.id ≠ toDelete.id) }
| none => s

def deleteAllLabelsFromTask (s : Store) (taskId : Nat) : Store :=
{ s with taskLabels := s.taskLabels.filter (fun tl => tl.taskId ≠ taskId) }

def deleteAllTasksFromLabel (s : Store) (labelId : Nat) : Store :=
{ s with taskLabels := s.taskLabels.filter (fun tl => tl.labelId ≠ labelId) }

/-! ## Data-access layer: taskComments (convex/db/taskComments.ts) -/

def createTaskComment (s : Store) (taskId userId : Nat) (content : String)
    (ctype : CommentType) (now : Nat) : Nat × Store :=
let c : TaskComment :=
  { id := s.nextId, taskId := taskId, userId := userId, content := content,
    ctype := ctype, createdAt := now }
(s.nextId, { s with taskComments := s.taskComments ++ [c], nextId := s.nextId + 1 })

def deleteTaskComment (s : Store) (id : Nat) : Store :=
{ s with taskComments := s.taskComments.filter (fun c => c.id ≠ id) }

def deleteAllCommentsFromTask (s : Store) (taskId : Nat) : Store :=
{ s with taskComments := s.taskComments.filter (fun c => c.taskId ≠ taskId) }

/-! ## Data-access layer: labels (convex/db/labels.ts) -/

def createLabel (s : Store) (userId : Nat) (name color : String) (now : Nat) :
    Nat × Store :=
let l : Label :=
  { id := s.nextId, userId := userId, name := name, color := color, createdAt := now }
(s.nextId, { s with labels := s.labels ++ [l], nextId := s.nextId + 1 })

def getLabelById (s : Store) (id : Nat) : Option Label :=
s.labels.find? (fun l => l.id == id)

/-- getLabelByUserAndName: the by_user_and_name index scan restricted to
the user, then query.filter((label) => label.name === name).first().
That callback is handed Convex's FilterBuilder, not a document, so
label.name is undefined and the predicate evaluates to the constant
false: the query matches nothing and first() always returns null. -/
def getLabelByUserAndName (s : Store) (userId : Nat) (name : String) : Option Label :=
((s.labels.filter (fun l => l.userId == userId)).filter
  (fun _ => false)).head?

structure LabelPatch where
name : Option String := none
color : Option String := none
deriving DecidableEq, Repr

def updateLabel (s : Store) (id : Nat) (p : LabelPatch) : Store :=
{ s with labels := s.labels.map (fun l =>
    if l.id = id then
      { l with name := p.name.getD l.name, color := p.color.getD l.color }
    else l) }

def deleteLabel (s : Store) (id : Nat) : Store :=
{ s with labels := s.labels.filter (fun l => l.id ≠ id) }

/-! ## Data-access layer: threads (convex/db/threads.ts) -/

def getThreadById (s : Store) (id : Nat) : Option Thread :=
s.threads.find? (fun t => t.id == id)

/-- A patch for a thread row; `title` distinguishes "set to a string"
(`some (some t)`) from "patched to undefined", which removes the field
(`some none`). -/
structure ThreadPatch where
title : Option (Option String) := none
status : Option ThreadStatus := none
deriving DecidableEq, Repr

def updateThread (s : Store) (id : Nat) (p : ThreadPatch) (now : Nat) : Store :=
{ s with threads := s.threads.map (fun t =>
    if t.id = id then
      { t with title := p.title.getD t.title, status := p.status.getD t.status,
               updatedAt := now }
    else t) }

/-! ## Endpoint layer

Each endpoint takes the authenticated caller (`none` when the session
context has no user), the rate-limiter oracle where the source consults
one, explicit `now`, and the store; mutations return the result paired
with the new store, errors are the spec taxonomy. -/

/-- JS truthiness of an optional string argument: present and non-empty. -/
def jsTruthy : Option String → Bool
| some s => !(s == "")
| none => false

structure TasksCreateArgs where
title : String
description : Option String := none
priority : TaskPriority
dueDate : Option Nat := none
deriving Repr

/-- endpoints/tasks.ts create -/
def Tasks.create (caller : Option Nat) (rl : RateLimiter) (a : TasksCreateArgs)
    (now : Nat) (s : Store) : Except Err (Nat × Store) :=
match caller with
| none => .error .unauthenticated
| some u =>
  let st := rl "createTask" u
  if st.ok = false then .error (.rateLimited st.retryAfter) else
  let title := sanitizeString a.title
  if isValidTaskTitle title = false then .error .invalidArgument
  else if jsTruthy a.description && !(isValidTaskDescription a.description) then
    .error .invalidArgument
  else
    let maxOrder := getMaxOrderForStatus s u TaskStatus.todo
    let r1 := createTask s
      { userId := u, title := title, description := a.description,
        status := TaskStatus.todo, priority := a.priority, dueDate := a.dueDate,
        order := maxOrder + 1 } now
    let s2 := (createTaskActivity r1.2 u r1.1 ActivityAction.created none
      (some (ActValue.vCreated title a.priority)) now).2
    .ok (r1.1, s2)

structure UpdateArgs where
id : Nat
title : Option String := none
description : Option String := none
status : Option TaskStatus := none
priority : Option TaskPriority := none
dueDate : Option Nat := none
deriving Repr

/-- The `updateData` object of tasks.update before the status block:
title only when truthy (sanitized), description when supplied,
priority when supplied, dueDate when supplied. -/
def baseUpdateData (a : UpdateArgs) : TaskPatch :=
{ title := match a.title with
    | some t => if t == "" then none else some (sanitizeString t)
    | none => none,
  description := a.description,
  priority := a.priority,
  dueDate := a.dueDate }

/-- The happy path of tasks.update after auth, rate limit, ownership and
validation: status block (patch fields + status_changed log), priority
log, the patch itself, then the generic updated log when neither a status
nor a priority argument was supplied. -/
def performUpdate (u : Nat) (a : UpdateArgs) (task : Task) (now : Nat)
    (s : Store) : Store :=
let d0 := baseUpdateData a
let step1 : TaskPatch × Store :=
  match a.status with
  | some ns =>
    if ns ≠ task.status then
      ({ d0 with
          status := some ns,
          completedAt := some (if ns = TaskStatus.completed then some now else none) },
       (createTaskActivity s u a.id ActivityAction.status_changed
         (some (ActValue.vStatus task.status)) (some (ActValue.vStatus ns)) now).2)
    else (d0, s)
  | none => (d0, s)
let s2 : Store :=
  match a.priority with
  | some np =>
    if np ≠ task.priority then
      (createTaskActivity step1.2 u a.id ActivityAction.priority_changed
        (some (ActValue.vPriority task.priority)) (some (ActValue.vPriority np)) now).2
    else step1.2
  | none => step1.2
let s3 := updateTask s2 a.id step1.1 now
if a.status.isNone && a.priority.isNone then
  (createTaskActivity s3 u a.id ActivityAction.updated none none now).2
else s3

/-- endpoints/tasks.ts update -/
def Tasks.update (caller : Option Nat) (rl : RateLimiter) (a : UpdateArgs)
    (now : Nat) (s : Store) : Except Err (Nat × Store) :=
match caller with
| none => .error .unauthenticated
| some u =>
  let st := rl "updateTask" u
  if st.ok = false then .error (.rateLimited st.retryAfter) else
  match getTaskById s a.id with
  | none => .error .notFound
  | some task =>
    if task.userId ≠ u then .error .forbidden
    else if jsTruthy a.title &&
        !(isValidTaskTitle (sanitizeString (a.title.getD ""))) then
      .error .invalidArgument
    else if jsTruthy a.description && !(isValidTaskDescription a.description) then
      .error .invalidArgument
    else .ok (a.id, performUpdate u a task now s)

/-- endpoints/tasks.ts reorder -/
def Tasks.reorder (caller : Option Nat) (rl : RateLimiter) (id : Nat)
    (newOrder : Int) (now : Nat) (s : Store) : Except Err (Nat × Store) :=
match caller with
| none => .error .unauthenticated
| some u =>
  let st := rl "updateTask" u
  if st.ok = false then .error (.rateLimited st.retryAfter) else
  match getTaskById s id with
  | none => .error .notFound
  | some task =>
    if task.userId ≠ u then .error .forbidden
    else .ok (id, updateTask s id { order := some newOrder } now)

/-- endpoints/tasks.ts remove: deleted-activity log, cascade deletion of
label associations and comments, activity retained, then the task row. -/
def Tasks.remove (caller : Option Nat) (rl : RateLimiter) (id : Nat)
    (now : Nat) (s : Store) : Except Err (Nat × Store) :=
match caller with
| none => .error .unauthenticated
| some u =>
  let st := rl "deleteTask" u
  if st.ok = false then .error (.rateLimited st.retryAfter) else
  match getTaskById s id with
  | none => .error .notFound
  | some task =>
    if task.userId ≠ u then .error .forbidden
    else
      let s1 := (createTaskActivity s u id ActivityAction.deleted
        (some (ActValue.vDeleted task.title)) none now).2
      let s2 := deleteAllLabelsFromTask s1 id
      let s3 := deleteAllCommentsFromTask s2 id
      .ok (id, deleteTask s3 id)

/-- endpoints/tasks.ts get -/
def Tasks.get (caller : Option Nat) (s : Store) (id : Nat) : Except Err Task :=
match caller with
| none => .error .unauthenticated
| some u =>
  match getTaskById s id with
  | none => .error .notFound
  | some task =>
    if task.userId ≠ u then .error .forbidden
    else .ok task

/-- endpoints/comments.ts remove: auth and rate limit, then deletes the
comment directly — the source performs no ownership verification
("we'll just try to delete it"). -/
def Comments.remove (caller : Option Nat) (rl : RateLimiter) (id : Nat)
    (s : Store) : Except Err (Nat × Store) :=
match caller with
| none => .error .unauthenticated
| some u =>
  let st := rl "deleteComment" u
  if st.ok = false then .error (.rateLimited st.retryAfter)
  else .ok (id, deleteTaskComment s id)

/-- endpoints/activity.ts getByTask: authorizes against the (live) task. -/
def Activity.getByTask (caller : Option Nat) (s : Store) (taskId : Nat) :
    Except Err (List TaskActivity) :=
match caller with
| none => .error .unauthenticated
| some u =>
  match getTaskById s taskId with
  | none => .error .notFound
  | some task =>
    if task.userId ≠ u then .error .forbidden
    else .ok (getActivityByTask s taskId)

/-- endpoints/activity.ts getRecent -/
def Activity.getRecent (caller : Option Nat) (s : Store) (limit : Option Nat) :
    Except Err (List TaskActivity) :=
match caller with
| none => .error .unauthenticated
| some u => .ok (getRecentActivityByUser s u limit)

/-- endpoints/activity.ts getAll -/
def Activity.getAll (caller : Option Nat) (s : Store) :
    Except Err (List TaskActivity) :=
match caller with
| none => .error .unauthenticated
| some u => .ok (getActivityByUser s u)

/-- endpoints/dashboard.ts recentActivity: takes no limit argument and
passes the literal 10 to the db helper. -/
def Dashboard.recentActivity (caller : Option Nat) (s : Store) :
    Except Err (List TaskActivity) :=
match caller with
| none => .error .unauthenticated
| some u => .ok (getRecentActivityByUser s u (some 10))

/-- endpoints/labels.ts create -/
def Labels.create (caller : Option Nat) (rl : RateLimiter) (name color : String)
    (now : Nat) (s : Store) : Except Err (Nat × Store) :=
match caller with
| none => .error .unauthenticated
| some u =>
  let st := rl "createLabel" u
  if st.ok = false then .error (.rateLimited st.retryAfter) else
  let n := sanitizeString name
  if isValidLabelName n = false then .error .invalidArgument
  else if isValidHexColor color = false then .error .invalidArgument
  else match getLabelByUserAndName s u n with
  | some _ => .error .invalidArgument
  | none => .ok (createLabel s u n color now)

structure LabelUpdateArgs where
id : Nat
name : Option String := none
color : Option String := none
deriving Repr

/-- endpoints/labels.ts update -/
def Labels.update (caller : Option Nat) (rl : RateLimiter) (a : LabelUpdateArgs)
    (s : Store) : Except Err (Nat × Store) :=
match caller with
| none => .error .unauthenticated
| some u =>
  let st := rl "updateLabel" u
  if st.ok = false then .error (.rateLimited st.retryAfter) else
  match getLabelById s a.id with
  | none => .error .notFound
  | some label =>
    if label.userId ≠ u then .error .forbidden
    else if jsTruthy a.name &&
        !(isValidLabelName (sanitizeString (a.name.getD ""))) then
      .error .invalidArgument
    else if jsTruthy a.name && sanitizeString (a.name.getD "") ≠ label.name &&
        (getLabelByUserAndName s u (sanitizeString (a.name.getD ""))).isSome then
      .error .invalidArgument
    else if jsTruthy a.color && !(isValidHexColor (a.color.getD "")) then
      .error .invalidArgument
    else
      let d : LabelPatch :=
        { name := match a.name with
            | some nm => if nm == "" then none else some (sanitizeString nm)
            | none => none,
          color := match a.color with
            | some c => if c == "" then none else some c
            | none => none }
      .ok (a.id, updateLabel s a.id d)

/-- endpoints/labels.ts removeFromTask: authorizes the task, then the
association delete is a silent no-op when no row matches. -/
def Labels.removeFromTask (caller : Option Nat) (rl : RateLimiter)
    (taskId labelId : Nat) (s : Store) : Except Err ((Nat × Nat) × Store) :=
match caller with
| none => .error .unauthenticated
| some u =>
  let st := rl "removeLabelFromTask" u
  if st.ok = false then .error (.rateLimited st.retryAfter) else
  match getTaskById s taskId with
  | none => .error .notFound
  | some task =>
    if task.userId ≠ u then .error .forbidden
    else .ok ((taskId, labelId), deleteTaskLabel s taskId labelId)

structure UpdateThreadArgs where
threadId : Nat
title : Option String := none
status : Option ThreadStatus := none
deriving Repr

/-- endpoints/ai.ts updateThread: the handler authenticates, authorizes
and validates, but — unlike every other mutation in the endpoint layer —
never consults the rate limiter, so it takes no oracle here. -/
def Ai.updateThread (caller : Option Nat) (a : UpdateThreadArgs) (now : Nat)
    (s : Store) : Except Err (Nat × Store) :=
match caller with
| none => .error .unauthenticated
| some u =>
  match getThreadById s a.threadId with
  | none => .error .notFound
  | some thread =>
    if thread.userId ≠ u then .error .forbidden
    else if jsTruthy a.title && !(isValidThreadTitle a.title) then
      .error .invalidArgument
    else
      let d : ThreadPatch :=
        { title := match a.title with
            | some t => if t == "" then some none else some (some (sanitizeString t))
            | none => none,
          status := a.status }
      .ok (a.threadId, Todo.updateThread s a.threadId d now)

/-! ## Invariants and auxiliary predicates -/

/-- Does a result carry the RateLimited error? -/
def isRateLimitedErr {α : Type} : Except Err α → Bool
| .error (.rateLimited _) => true
| _ => false

/-- Spec section 3 invariant on tasks: completedAt set iff status=completed. -/
def CompletedIffInv (s : Store) : Prop :=
∀ t ∈ s.tasks, (t.completedAt.isSome = true ↔ t.status = TaskStatus.completed)

/-- Spec section 3 invariant on labels: name unique within a user's label set. -/
def LabelNamesUnique (s : Store) : Prop :=
∀ l1 ∈ s.labels, ∀ l2 ∈ s.labels, l1.userId = l2.userId → l1.name = l2.name → l1 = l2

/-- Well-formedness of the label table: ids below the id counter and
pairwise distinct (the persistence collaborator's unique-id guarantee). -/
def LabelsWF (s : Store) : Prop :=
(∀ l ∈ s.labels, l.id < s.nextId) ∧ (s.labels.map Label.id).Nodup

/-- Did this update call supply a status different from the task's? -/
def statusChangeTriggered (a : UpdateArgs) (task : Task) : Bool :=
match a.status with
| some ns => ns != task.status
| none => false

/-- Did this update call supply a priority different from the task's? -/
def priorityChangeTriggered (a : UpdateArgs) (task : Task) : Bool :=
match a.priority with
| some np => np != task.priority
| none => false

/-- The final patch object tasks.update hands to the db layer. -/
def updatePatch (a : UpdateArgs) (task : Task) (now : Nat) : TaskPatch :=
match a.status with
| some ns =>
  if ns ≠ task.status then
    { baseUpdateData a with
        status := some ns,
        completedAt := some (if ns = TaskStatus.completed then some now else none) }
  else baseUpdateData a
| none => baseUpdateData a

/-! ## Concrete fixtures for witnesses and counterexamples -/

def exTask : Task :=
{ id := 0, userId := 1, title := "t", description := none,
  status := TaskStatus.todo, priority := TaskPriority.low, dueDate := none,
  completedAt := none, order := 1, createdAt := 0, updatedAt := 0 }

def exStore : Store :=
{ tasks := [exTask], labels := [], taskLabels := [], taskComments := [],
  taskActivity := [], threads := [], nextId := 1 }

def exComment : TaskComment :=
{ id := 5, taskId := 0, userId := 1, content := "hi",
  ctype := CommentType.user_note, createdAt := 0 }

def exStoreC : Store :=
{ tasks := [exTask], labels := [], taskLabels := [], taskComments := [exComment],
  taskActivity := [], threads := [], nextId := 6 }

def exActivityRow : TaskActivity :=
{ id := 3, userId := 1, taskId := 0, action := ActivityAction.created,
  oldValue := none, newValue := none, createdAt := 0 }

def exStoreD : Store :=
{ tasks := [exTask], labels := [],
  taskLabels := [{ id := 2, taskId := 0, labelId := 9, userId := 1, createdAt := 0 }],
  taskComments := [exComment], taskActivity := [exActivityRow], threads := [],
  nextId := 6 }

def exActs11 : List TaskActivity :=
(List.range 11).map (fun i =>
  { id := i, userId := 1, taskId := 0, action := ActivityAction.updated,
    oldValue := none, newValue := none, createdAt := i })

def exStore11 : Store :=
{ tasks := [], labels := [], taskLabels := [], taskComments := [],
  taskActivity := exActs11, threads := [], nextId := 20 }

def exThread : Thread :=
{ id := 4, userId := 1, title := none, status := ThreadStatus.active,
  createdAt := 0, updatedAt := 0 }

def exStoreT : Store :=
{ tasks := [], labels := [], taskLabels := [], taskComments := [],
  taskActivity := [], threads := [exThread], nextId := 6 }

def exLabel : Label :=
{ id := 7, userId := 1, name := "Work", color := "#abc", createdAt := 0 }

def exStoreL : Store :=
{ tasks := [], labels := [exLabel], taskLabels := [], taskComments := [],
  taskActivity := [], threads := [], nextId := 8 }

/-- The exact activity records one tasks.update call appends, in order
(ids continue from the id counter `n0`). -/
def updateActivitySuffix (u : Nat) (a : UpdateArgs) (task : Task) (now : Nat)
    (n0 : Nat) : List TaskActivity :=
let l1 : List TaskActivity :=
  match a.status with
  | some ns =>
    if ns ≠ task.status then
      [{ id := n0, userId := u, taskId := a.id, action := ActivityAction.status_changed,
         oldValue := some (ActValue.vStatus task.status),
         newValue := some (ActValue.vStatus ns), createdAt := now }]
    else []
  | none => []
let l2 : List TaskActivity :=
  match a.priority with
  | some np =>
    if np ≠ task.priority then
      [{ id := n0 + l1.length, userId := u, taskId := a.id,
         action := ActivityAction.priority_changed,
         oldValue := some (ActValue.vPriority task.priority),
         newValue := some (ActValue.vPriority np), createdAt := now }]
    else []
  | none => []
let l3 : List TaskActivity :=
  if a.status.isNone && a.priority.isNone then
    [{ id := n0 + l1.length + l2.length, userId := u, taskId := a.id,
       action := ActivityAction.updated, oldValue := none, newValue := none,
       createdAt := now }]
  else []
l1 ++ l2 ++ l3

/-- A store whose task with the given id had only its updatedAt refreshed. -/
def onlyTouch (i : Nat) (now : Nat) (s : Store) : Store :=
let f := fun (t : Task) => if t.id = i then { t with updatedAt := now } else t
{ s with tasks := s.tasks.map f }

/-- The patch object labels.update hands to the db layer. -/
def labelPatchOf (a : LabelUpdateArgs) : LabelPatch :=
{ name := match a.name with
    | some nm => if nm == "" then none else some (sanitizeString nm)
    | none => none,
  color := match a.color with
    | some c => if c == "" then none else some c
    | none => none }

/-- The store a successful mutation produced (fallback for the error case). -/
def resultStore (e : Except Err (Nat × Store)) (d : Store) : Store :=
match e with
| .ok r => r.2
| .error _ => d

def delRec : TaskActivity :=
{ id := 6, userId := 1, taskId := 0, action := ActivityAction.deleted,
  oldValue := some (ActValue.vDeleted "t"), newValue := none, createdAt := 7 }

def exStoreDafter : Store :=
{ tasks := [], labels := [], taskLabels := [], taskComments := [],
  taskActivity := [exActivityRow, delRec], threads := [], nextId := 7 }

def c3args : UpdateArgs := { id := 0, status := some TaskStatus.completed }

def exStoreUpd : Store :=
resultStore (Tasks.update (some 1) rlAllow c3args 5 exStore) exStore

def c4args : UpdateArgs :=
{ id := 0, status := some TaskStatus.in_progress, priority := some TaskPriority.high }

def exStoreUpd2 : Store :=
resultStore (Tasks.update (some 1) rlAllow c4args 6 exStore) exStore

def c8args : TasksCreateArgs := { title := "a", priority := TaskPriority.low }

def dupLabel : Label :=
{ id := 8, userId := 1, name := "Work", color := "#6366f1", createdAt := 3 }

def exStoreLdup : Store :=
{ tasks := [], labels := [exLabel, dupLabel], taskLabels := [], taskComments := [],
  taskActivity := [], threads := [], nextId := 9 }

/-! ## Helper lemmas about tasks.update -/

theorem performUpdate_tasks (u : Nat) (a : UpdateArgs) (task : Task) (now : Nat)
    (s : Store) :
    (performUpdate u a task now s).tasks =
      s.tasks.map (fun t =>
        if t.id = a.id then applyTaskPatch t (updatePatch a task now) now else t) := by
  rcases hs : a.status with _ | ns
  all_goals rcases hp : a.priority with _ | np
  all_goals try by_cases hns : ns = task.status
  all_goals try by_cases hnp : np = task.priority
  all_goals simp [performUpdate, updatePatch, createTaskActivity, updateTask, hs, hp, *]

theorem performUpdate_activity (u : Nat) (a : UpdateArgs) (task : Task) (now : Nat)
    (s : Store) :
    (performUpdate u a task now s).taskActivity =
      s.taskActivity ++ updateActivitySuffix u a task now s.nextId := by
  rcases hs : a.status with _ | ns
  all_goals rcases hp : a.priority with _ | np
  all_goals try by_cases hns : ns = task.status
  all_goals try by_cases hnp : np = task.priority
  all_goals simp [performUpdate, updateActivitySuffix, createTaskActivity, updateTask,
    hs, hp, *]

theorem updateActivitySuffix_actions (u : Nat) (a : UpdateArgs) (task : Task)
    (now n0 : Nat) :
    (updateActivitySuffix u a task now n0).map TaskActivity.action =
      (if statusChangeTriggered a task then [ActivityAction.status_changed] else []) ++
      (if priorityChangeTriggered a task then [ActivityAction.priority_changed] else []) ++
      (if a.status.isNone && a.priority.isNone then [ActivityAction.updated] else []) := by
  rcases hs : a.status with _ | ns
  all_goals rcases hp : a.priority with _ | np
  all_goals try by_cases hns : ns = task.status
  all_goals try by_cases hnp : np = task.priority
  all_goals simp [updateActivitySuffix, statusChangeTriggered, priorityChangeTriggered,
    hs, hp, *]

theorem performUpdate_frame (u : Nat) (a : UpdateArgs) (task : Task) (now : Nat)
    (s : Store) :
    (performUpdate u a task now s).labels = s.labels ∧
    (performUpdate u a task now s).taskLabels = s.taskLabels ∧
    (performUpdate u a task now s).taskComments = s.taskComments ∧
    (performUpdate u a task now s).threads = s.threads := by
  rcases hs : a.status with _ | ns
  all_goals rcases hp : a.priority with _ | np
  all_goals try by_cases hns : ns = task.status
  all_goals try by_cases hnp : np = task.priority
  all_goals simp [performUpdate, createTaskActivity, updateTask, hs, hp, *]

theorem tasksUpdate_ok_shape {caller : Option Nat} {rl : RateLimiter} {a : UpdateArgs}
    {now : Nat} {s : Store} {i : Nat} {s' : Store} {task : Task}
    (h : Tasks.update caller rl a now s = .ok (i, s'))
    (hfind : getTaskById s a.id = some task) :
    i = a.id ∧ ∃ u, caller = some u ∧ s' = performUpdate u a task now s := by
  cases caller with
  | none => exact Except.noConfusion h
  | some u =>
    simp only [Tasks.update, hfind] at h
    repeat' split at h
    all_goals first
      | exact Except.noConfusion h
      | · simp only [Except.ok.injEq, Prod.mk.injEq] at h
          exact ⟨h.1.symm, u, rfl, h.2.symm⟩

theorem tasksUpdate_ok_find {caller : Option Nat} {rl : RateLimiter} {a : UpdateArgs}
    {now : Nat} {s : Store} {i : Nat} {s' : Store}
    (h : Tasks.update caller rl a now s = .ok (i, s')) :
    ∃ task, getTaskById s a.id = some task := by
  cases caller with
  | none => exact Except.noConfusion h
  | some u =>
    cases hf : getTaskById s a.id with
    | some task => exact ⟨task, rfl⟩
    | none =>
      simp only [Tasks.update, hf] at h
      repeat' split at h
      all_goals exact Except.noConfusion h

theorem tasksCreate_ok_tasks {caller : Option Nat} {rl : RateLimiter}
    {a : TasksCreateArgs} {now : Nat} {s : Store} {i : Nat} {s' : Store}
    (h : Tasks.create caller rl a now s = .ok (i, s')) :
    ∃ t, s'.tasks = s.tasks ++ [t] ∧ t.id = i ∧ t.status = TaskStatus.todo ∧
      t.completedAt = none := by
  cases caller with
  | none => exact Except.noConfusion h
  | some u =>
    simp only [Tasks.create, createTask, createTaskActivity] at h
    repeat' split at h
    all_goals first
      | exact Except.noConfusion h
      | · simp only [Except.ok.injEq, Prod.mk.injEq] at h
          exact ⟨{ id := s.nextId, userId := u, title := sanitizeString a.title,
                   description := a.description, status := TaskStatus.todo,
                   priority := a.priority, dueDate := a.dueDate, completedAt := none,
                   order := getMaxOrderForStatus s u TaskStatus.todo + 1,
                   createdAt := now, updatedAt := now },
                 by rw [← h.2], by rw [← h.1], rfl, rfl⟩

theorem tasksReorder_ok_shape {caller : Option Nat} {rl : RateLimiter} {id : Nat}
    {newOrder : Int} {now : Nat} {s : Store} {i : Nat} {s' : Store}
    (h : Tasks.reorder caller rl id newOrder now s = .ok (i, s')) :
    i = id ∧ s' = updateTask s id { order := some newOrder } now := by
  cases caller with
  | none => exact Except.noConfusion h
  | some u =>
    simp only [Tasks.reorder] at h
    repeat' split at h
    all_goals first
      | exact Except.noConfusion h
      | · simp only [Except.ok.injEq, Prod.mk.injEq] at h
          exact ⟨h.1.symm, h.2.symm⟩

theorem applyPatch_inv (t task : Task) (a : UpdateArgs) (now : Nat)
    (hinv : t.completedAt.isSome = true ↔ t.status = TaskStatus.completed) :
    ((applyTaskPatch t (updatePatch a task now) now).completedAt.isSome = true ↔
      (applyTaskPatch t (updatePatch a task now) now).status = TaskStatus.completed) := by
  rcases hs : a.status with _ | ns
  · simpa [updatePatch, baseUpdateData, applyTaskPatch, hs] using hinv
  · by_cases hns : ns = task.status
    · simpa [updatePatch, baseUpdateData, applyTaskPatch, hs, hns] using hinv
    · by_cases hc : ns = TaskStatus.completed
      · subst hc
        simp [updatePatch, baseUpdateData, applyTaskPatch, hs, hns]
      · simp [updatePatch, baseUpdateData, applyTaskPatch, hs, hns, hc]

/-! ## Helper lemmas about labels, activity ordering and trimming -/

theorem getLabelByUserAndName_always_none (s : Store) (u : Nat) (n : String) :
    getLabelByUserAndName s u n = none := by
  simp [getLabelByUserAndName]

theorem getActivityByUser_sorted (s : Store) (u : Nat) (n : Nat)
    (hsorted : List.Pairwise (fun x y => x ≤ y) (s.taskActivity.map TaskActivity.createdAt)) :
    List.Pairwise (fun x y => x ≥ y)
      (((getActivityByUser s u).take n).map TaskActivity.createdAt) := by
  have h1 : List.Pairwise (fun r1 r2 : TaskActivity => r1.createdAt ≤ r2.createdAt)
      s.taskActivity := (List.pairwise_map).mp hsorted
  have h2 : List.Pairwise (fun r1 r2 : TaskActivity => r1.createdAt ≤ r2.createdAt)
      (s.taskActivity.filter (fun r => r.userId == u)) :=
    h1.sublist (List.filter_sublist _)
  have h3 : List.Pairwise (fun r1 r2 : TaskActivity => r2.createdAt ≤ r1.createdAt)
      (getActivityByUser s u) := by
    simpa [getActivityByUser, List.pairwise_reverse] using h2
  have h4 := h3.sublist (List.take_sublist n _)
  exact (List.pairwise_map).mpr h4

theorem dropWhile_head_false {α : Type} (p : α → Bool) :
    ∀ (l : List α) (x : α) (xs : List α), l.dropWhile p = x :: xs → p x = false := by
  intro l
  induction l with
  | nil => intro x xs h; exact List.noConfusion h
  | cons a t ih =>
    intro x xs h
    rw [List.dropWhile_cons] at h
    by_cases ha : p a = true
    · rw [if_pos ha] at h
      exact ih x xs h
    · rw [if_neg ha] at h
      obtain ⟨h1, h2⟩ := List.cons.inj h
      rw [← h1]
      exact Bool.not_eq_true _ |>.mp ha

theorem dropWhile_idem {α : Type} (p : α → Bool) (l : List α) :
    (l.dropWhile p).dropWhile p = l.dropWhile p := by
  cases hd : l.dropWhile p with
  | nil => rfl
  | cons x xs =>
    rw [List.dropWhile_cons, if_neg]
    rw [dropWhile_head_false p l x xs hd]
    exact Bool.false_ne_true

theorem dropWhile_append_eq {α : Type} (p : α → Bool) (l : List α) :
    ∃ t, t ++ l.dropWhile p = l := by
  induction l with
  | nil => exact ⟨[], rfl⟩
  | cons a tl ih =>
    rw [List.dropWhile_cons]
    by_cases ha : p a = true
    · rw [if_pos ha]
      obtain ⟨t, ht⟩ := ih
      exact ⟨a :: t, by rw [List.cons_append, ht]⟩
    · rw [if_neg ha]
      exact ⟨[], rfl⟩

theorem jsTrim_idem (s : String) : jsTrim (jsTrim s) = jsTrim s := by
  simp only [jsTrim]
  congr 1
  set p := Char.isWhitespace
  set m := s.data.dropWhile p with hm
  set r := m.reverse.dropWhile p with hr
  -- first: dropping leading whitespace from the trimmed list is the identity
  have hfirst : r.reverse.dropWhile p = r.reverse := by
    cases hrr : r.reverse with
    | nil => rfl
    | cons y ys =>
      -- r.reverse is a prefix of m, whose head fails p
      obtain ⟨t, ht⟩ := dropWhile_append_eq p m.reverse
      have hm2 : m = r.reverse ++ t.reverse := by
        have := congrArg List.reverse ht
        simpa [List.reverse_append] using this.symm
      have hy : p y = false := by
        rw [hrr] at hm2
        rw [List.cons_append] at hm2
        exact dropWhile_head_false p s.data y (ys ++ t.reverse) (by rw [← hm, hm2])
      rw [List.dropWhile_cons, if_neg (by rw [hy]; exact Bool.false_ne_true)]
  rw [hfirst, List.reverse_reverse, hr, dropWhile_idem p m.reverse, ← hr]

theorem tasksRemove_ok_shape {caller : Option Nat} {rl : RateLimiter} {id : Nat}
    {now : Nat} {s : Store} {i : Nat} {s' : Store}
    (h : Tasks.remove caller rl id now s = .ok (i, s')) :
    i = id ∧ ∃ u task, caller = some u ∧ getTaskById s id = some task ∧
      s' = deleteTask (deleteAllCommentsFromTask (deleteAllLabelsFromTask
        ((createTaskActivity s u id ActivityAction.deleted
          (some (ActValue.vDeleted task.title)) none now).2) id) id) id := by
  cases caller with
  | none => exact Except.noConfusion h
  | some u =>
    cases hf : getTaskById s id with
    | none =>
      simp only [Tasks.remove, hf] at h
      repeat' split at h
      all_goals exact Except.noConfusion h
    | some task =>
      simp only [Tasks.remove, hf] at h
      repeat' split at h
      all_goals first
        | exact Except.noConfusion h
        | · simp only [Except.ok.injEq, Prod.mk.injEq] at h
            exact ⟨h.1.symm, u, task, rfl, rfl, h.2.symm⟩

/-! ## Claim theorems -/

/-- C1: the claim says every entity-referencing operation fails with
Forbidden when the entity's userId differs from the caller's.  The code of
comments.remove violates it: user 2 deletes user 1's comment (id 5); the
call succeeds, returns the id, and the comment row is gone. -/
theorem c1_comments_remove_no_ownership_check :
    Comments.remove (some 2) rlAllow 5 exStoreC = .ok (5, { exStoreC with taskComments := [] }) ∧
    exComment ∈ exStoreC.taskComments ∧ (exComment.userId == 2) = false := by
  refine ⟨rfl, by decide, by decide⟩

/-- C2 counterexample: after tasks.remove succeeds on the task, the
activity rows are retained in the store, but activity.getByTask for the
deleted task fails with NotFound instead of returning them. -/
theorem c2_getByTask_after_remove_cx :
    Tasks.remove (some 1) rlAllow 0 7 exStoreD = .ok (0, exStoreDafter) ∧
    exActivityRow ∈ exStoreDafter.taskActivity ∧
    Activity.getByTask (some 1) exStoreDafter 0 = .error Err.notFound := by
  exact ⟨rfl, by decide, rfl⟩

/-- C2 amended: a successful tasks.remove leaves no TaskLabel or
TaskComment row of the task, retains every prior TaskActivity row (still
readable through activity.getAll), but activity.getByTask on the deleted
task now fails with NotFound. -/
theorem c2_remove_cascade_amended : ∀ u rl id now s i s',
    Tasks.remove (some u) rl id now s = .ok (i, s') →
    (∀ tl ∈ s'.taskLabels, tl.taskId ≠ id) ∧
    (∀ c ∈ s'.taskComments, c.taskId ≠ id) ∧
    (∀ r ∈ s.taskActivity, r ∈ s'.taskActivity) ∧
    Activity.getByTask (some u) s' id = .error Err.notFound ∧
    (∀ r ∈ s.taskActivity, r.userId = u →
      ∃ l, Activity.getAll (some u) s' = .ok l ∧ r ∈ l) := by
  intro u rl id now s i s' h
  obtain ⟨hi, u', task, hu, hf, hs'⟩ := tasksRemove_ok_shape h
  injection hu with h2
  subst h2
  subst hs'
  refine ⟨?_, ?_, ?_, ?_, ?_⟩
  · intro tl htl
    simp only [deleteTask, deleteAllCommentsFromTask, deleteAllLabelsFromTask,
      createTaskActivity, List.mem_filter, decide_eq_true_eq] at htl
    exact htl.2
  · intro c hc
    simp only [deleteTask, deleteAllCommentsFromTask, deleteAllLabelsFromTask,
      createTaskActivity, List.mem_filter, decide_eq_true_eq] at hc
    exact hc.2
  · intro r hr
    simp only [deleteTask, deleteAllCommentsFromTask, deleteAllLabelsFromTask,
      createTaskActivity]
    exact List.mem_append_left _ hr
  · have hnone : getTaskById (deleteTask (deleteAllCommentsFromTask
        (deleteAllLabelsFromTask ((createTaskActivity s u id ActivityAction.deleted
          (some (ActValue.vDeleted task.title)) none now).2) id) id) id) id = none := by
      simp only [getTaskById, deleteTask, deleteAllCommentsFromTask,
        deleteAllLabelsFromTask, createTaskActivity]
      rw [List.find?_eq_none]
      intro t ht hbeq
      simp only [List.mem_filter, decide_eq_true_eq] at ht
      exact ht.2 (by simpa using hbeq)
    simp only [Activity.getByTask]
    rw [hnone]
  · intro r hr hru
    refine ⟨_, rfl, ?_⟩
    simp only [Activity.getAll, getActivityByUser, deleteTask,
      deleteAllCommentsFromTask, deleteAllLabelsFromTask, createTaskActivity,
      List.mem_reverse, List.mem_filter]
    exact ⟨List.mem_append_left _ hr, by simp [hru]⟩

/-- C2 witness: the amended statement instantiated at a concrete store
holding one association, one comment and one activity row for the task. -/
theorem c2_remove_cascade_amended_witness :
    (∀ tl ∈ exStoreDafter.taskLabels, tl.taskId ≠ 0) ∧
    (∀ c ∈ exStoreDafter.taskComments, c.taskId ≠ 0) ∧
    (∀ r ∈ exStoreD.taskActivity, r ∈ exStoreDafter.taskActivity) ∧
    Activity.getByTask (some 1) exStoreDafter 0 = .error Err.notFound ∧
    (∀ r ∈ exStoreD.taskActivity, r.userId = 1 →
      ∃ l, Activity.getAll (some 1) exStoreDafter = .ok l ∧ r ∈ l) :=
  c2_remove_cascade_amended 1 rlAllow 0 7 exStoreD 0 exStoreDafter (by rfl)


/-- C3: completedAt is set iff status=completed, after every operation:
create yields a todo task without completedAt; update preserves the
invariant, and a status change sets completedAt exactly when the new
status is completed (unsetting it otherwise); reorder never touches
status or completedAt. -/
theorem c3_completedAt_iff_completed :
    (∀ caller rl a now s i s', Tasks.create caller rl a now s = .ok (i, s') →
      (CompletedIffInv s → CompletedIffInv s') ∧
      ∃ t, s'.tasks = s.tasks ++ [t] ∧ t.id = i ∧ t.status = TaskStatus.todo ∧
        t.completedAt = none) ∧
    (∀ caller rl a now s i s', Tasks.update caller rl a now s = .ok (i, s') →
      CompletedIffInv s → CompletedIffInv s') ∧
    (∀ caller rl a now s i s' task st, Tasks.update caller rl a now s = .ok (i, s') →
      getTaskById s a.id = some task → a.status = some st → st ≠ task.status →
      ∀ t' ∈ s'.tasks, t'.id = a.id →
        t'.completedAt = (if st = TaskStatus.completed then some now else none)) ∧
    (∀ caller rl id newOrder now s i s',
      Tasks.reorder caller rl id newOrder now s = .ok (i, s') →
      s'.tasks.map (fun t => (t.status, t.completedAt)) =
        s.tasks.map (fun t => (t.status, t.completedAt)) ∧
      (CompletedIffInv s → CompletedIffInv s')) := by
  refine ⟨?hc, ?hu, ?hset, ?hro⟩
  case hc =>
    intro caller rl a now s i s' h
    obtain ⟨t, hts, hid, hst, hca⟩ := tasksCreate_ok_tasks h
    refine ⟨?_, t, hts, hid, hst, hca⟩
    intro hinv t' ht'
    rw [hts] at ht'
    rcases List.mem_append.mp ht' with hmem | hmem
    · exact hinv t' hmem
    · simp only [List.mem_singleton] at hmem
      subst hmem
      rw [hca, hst]
      simp
  case hu =>
    intro caller rl a now s i s' h hinv
    obtain ⟨task, hfind⟩ := tasksUpdate_ok_find h
    obtain ⟨hi, u, hcall, hs'⟩ := tasksUpdate_ok_shape h hfind
    subst hs'
    intro t' ht'
    rw [performUpdate_tasks] at ht'
    obtain ⟨t, ht, hft⟩ := List.mem_map.mp ht'
    by_cases hid : t.id = a.id
    · rw [if_pos hid] at hft
      subst hft
      exact applyPatch_inv t task a now (hinv t ht)
    · rw [if_neg hid] at hft
      subst hft
      exact hinv t ht
  case hset =>
    intro caller rl a now s i s' task st h hfind hst hne t' ht' hid'
    obtain ⟨hi, u, hcall, hs'⟩ := tasksUpdate_ok_shape h hfind
    subst hs'
    rw [performUpdate_tasks] at ht'
    obtain ⟨t, ht, hft⟩ := List.mem_map.mp ht'
    by_cases hid : t.id = a.id
    · rw [if_pos hid] at hft
      subst hft
      simp [applyTaskPatch, updatePatch, hst, hne]
    · rw [if_neg hid] at hft
      subst hft
      exact absurd hid' hid
  case hro =>
    intro caller rl id newOrder now s i s' h
    obtain ⟨hi, hs'⟩ := tasksReorder_ok_shape h
    subst hs'
    constructor
    · simp only [updateTask, List.map_map]
      refine List.map_congr_left ?_
      intro t ht
      by_cases hid : t.id = id
      · simp [hid, applyTaskPatch]
      · simp [hid]
    · intro hinv t' ht'
      simp only [updateTask, List.mem_map] at ht'
      obtain ⟨t, ht, hft⟩ := ht'
      by_cases hid : t.id = id
      · rw [if_pos hid] at hft
        subst hft
        simpa [applyTaskPatch] using hinv t ht
      · rw [if_neg hid] at hft
        subst hft
        exact hinv t ht

/-- C3 witness: completing the concrete todo task yields a store that
satisfies the invariant, with completedAt set on the task. -/
theorem c3_completedAt_iff_completed_witness :
    CompletedIffInv exStoreUpd ∧
    (∀ t' ∈ exStoreUpd.tasks, t'.id = 0 →
      t'.completedAt = (if TaskStatus.completed = TaskStatus.completed
        then some 5 else none)) :=
  ⟨c3_completedAt_iff_completed.2.1 (some 1) rlAllow c3args 5 exStore 0 exStoreUpd
      (by rfl) (by unfold CompletedIffInv; decide),
   c3_completedAt_iff_completed.2.2.1 (some 1) rlAllow c3args 5 exStore 0 exStoreUpd
      exTask TaskStatus.completed (by rfl) (by rfl) rfl (by decide)⟩


/-- C4 counterexample: supplying a status equal to the task's current
status appends no activity record at all, while the claim demands a
single generic updated record for such a call. -/
theorem c4_unchanged_status_no_record_cx :
    Tasks.update (some 1) rlAllow { id := 0, status := some TaskStatus.todo } 5 exStore =
      .ok (0, onlyTouch 0 5 exStore) ∧
    (onlyTouch 0 5 exStore).taskActivity.length = exStore.taskActivity.length := by
  exact ⟨rfl, rfl⟩

/-- C4 amended: one successful update call appends exactly one
status_changed record iff the supplied status differs from the current
one, one priority_changed record iff the supplied priority differs, and a
single generic updated record iff neither a status nor a priority
argument was supplied; in particular a call changing both appends exactly
two records and never a generic one. -/
theorem c4_update_activity_amended : ∀ caller rl a now s i s' task,
    Tasks.update caller rl a now s = .ok (i, s') →
    getTaskById s a.id = some task →
    ∃ L, s'.taskActivity = s.taskActivity ++ L ∧
      L.map TaskActivity.action =
        (if statusChangeTriggered a task then [ActivityAction.status_changed] else []) ++
        (if priorityChangeTriggered a task then [ActivityAction.priority_changed] else []) ++
        (if a.status.isNone && a.priority.isNone then [ActivityAction.updated] else []) := by
  intro caller rl a now s i s' task h hfind
  obtain ⟨hi, u, hcall, hs'⟩ := tasksUpdate_ok_shape h hfind
  subst hs'
  exact ⟨updateActivitySuffix u a task now s.nextId,
    performUpdate_activity u a task now s,
    updateActivitySuffix_actions u a task now s.nextId⟩

/-- C4 witness: a call changing both status and priority appends exactly
a status_changed and a priority_changed record, and no generic one. -/
theorem c4_update_activity_amended_witness :
    ∃ L, exStoreUpd2.taskActivity = exStore.taskActivity ++ L ∧
      L.map TaskActivity.action =
        (if statusChangeTriggered c4args exTask then [ActivityAction.status_changed] else []) ++
        (if priorityChangeTriggered c4args exTask then [ActivityAction.priority_changed] else []) ++
        (if c4args.status.isNone && c4args.priority.isNone then [ActivityAction.updated] else []) :=
  c4_update_activity_amended (some 1) rlAllow c4args 6 exStore 0 exStoreUpd2 exTask
    (by rfl) (by rfl)

/-- C5: the claim (and the repo's own docs) say every mutation, including
ai.updateThread, consults the token-bucket limiter.  The handler never
does: no oracle is consulted, no RateLimited error is possible for any
input, and no updateThread bucket is even configured; the concrete call
at the failing input mutates successfully. -/
theorem c5_updateThread_skips_rate_limiter :
    (∀ caller a now s, isRateLimitedErr (Ai.updateThread caller a now s) = false) ∧
    (rateLimiterConfig.map Prod.fst).contains "updateThread" = false ∧
    (Ai.updateThread (some 1) { threadId := 4, status := some ThreadStatus.archived }
      9 exStoreT).isOk = true := by
  refine ⟨?_, by decide, by rfl⟩
  intro caller a now s
  cases caller with
  | none => rfl
  | some u =>
    simp only [Ai.updateThread]
    cases h : getThreadById s a.threadId with
    | none => rfl
    | some thread =>
      repeat' split
      all_goals rfl


/-- C6: the claim says labels.create rejects a duplicate (sanitized) name
with InvalidArgument, keeping names unique.  The code cannot do this:
getLabelByUserAndName passes a document predicate to Convex's
FilterBuilder, so the lookup is constant null on every store and the
duplicate check never fires.  At the failing input, user 1 who already
owns "Work" creates a second label also named "Work": the call succeeds
and the store ends with two same-named, distinct-id labels for the user. -/
theorem c6_duplicate_label_name_not_rejected :
    (∀ s u n, getLabelByUserAndName s u n = none) ∧
    Labels.create (some 1) rlAllow "Work" "#6366f1" 3 exStoreL = .ok (8, exStoreLdup) ∧
    exLabel ∈ exStoreLdup.labels ∧ dupLabel ∈ exStoreLdup.labels ∧
    exLabel.userId = dupLabel.userId ∧ exLabel.name = dupLabel.name ∧
    (exLabel.id == dupLabel.id) = false := by
  refine ⟨getLabelByUserAndName_always_none, rfl, by decide, by decide, rfl, rfl, by decide⟩

/-- C7 counterexample: with 11 activity rows for the caller (fewer than
the claimed default of 20), dashboard.recentActivity returns only 10 of
them — the handler takes no limit argument and hardcodes 10. -/
theorem c7_recentActivity_limit_cx :
    Dashboard.recentActivity (some 1) exStore11 = .ok ((exActs11.reverse).take 10) ∧
    exActs11.length = 11 ∧ ((exActs11.reverse).take 10).length = 10 := by
  refine ⟨rfl, rfl, rfl⟩

/-- C7 amended: dashboard.recentActivity returns the caller's 10 most
recent activity records (creation-time descending when the log is
appended in time order); the 20-record default applies only to the db
helper's optional limit, reachable through activity.getRecent. -/
theorem c7_recentActivity_amended : ∀ u s,
    Dashboard.recentActivity (some u) s = .ok ((getActivityByUser s u).take 10) ∧
    (∀ limit, Activity.getRecent (some u) s limit =
      .ok ((getActivityByUser s u).take (limit.getD 20))) ∧
    (List.Pairwise (fun x y => x ≤ y) (s.taskActivity.map TaskActivity.createdAt) →
      List.Pairwise (fun x y => x ≥ y)
        (((getActivityByUser s u).take 10).map TaskActivity.createdAt)) := by
  intro u s
  exact ⟨rfl, fun limit => rfl, fun hs => getActivityByUser_sorted s u 10 hs⟩

/-- C7 witness: the amended statement at the 11-record store, with the
ordering hypothesis discharged concretely. -/
theorem c7_recentActivity_amended_witness :
    Dashboard.recentActivity (some 1) exStore11 =
      .ok ((getActivityByUser exStore11 1).take 10) ∧
    List.Pairwise (fun x y => x ≥ y)
      (((getActivityByUser exStore11 1).take 10).map TaskActivity.createdAt) :=
  ⟨(c7_recentActivity_amended 1 exStore11).1,
   (c7_recentActivity_amended 1 exStore11).2.2 (by decide)⟩


/-- C8 counterexample: a title of exactly 1 character — a single space —
fails with InvalidArgument, because validation applies to the trimmed
title; the claim promises success for every 1-character title. -/
theorem c8_one_char_space_title_cx :
    Tasks.create (some 1) rlAllow { title := " ", priority := TaskPriority.low }
      5 exStore = .error Err.invalidArgument ∧
    (" ").length = 1 := by
  exact ⟨rfl, rfl⟩

/-- C8 amended: with the caller authenticated, the bucket available and a
valid description, tasks.create fails with InvalidArgument exactly when
the trimmed title is empty or longer than 200 characters, and succeeds
whenever the trimmed title has 1 to 200 characters (in particular for
1- and 200-character titles without surrounding whitespace). -/
theorem c8_create_title_validation_amended : ∀ u rl a now s,
    (rl "createTask" u).ok = true →
    isValidTaskDescription a.description = true →
    ((Tasks.create (some u) rl a now s = .error Err.invalidArgument ↔
      ¬(0 < (jsTrim a.title).length ∧ (jsTrim a.title).length ≤ 200)) ∧
     ((0 < (jsTrim a.title).length ∧ (jsTrim a.title).length ≤ 200) →
      (Tasks.create (some u) rl a now s).isOk = true)) := by
  intro u rl a now s hrl hdesc
  have hval : isValidTaskTitle (sanitizeString a.title) =
      decide (0 < (jsTrim a.title).length ∧ (jsTrim a.title).length ≤ 200) := by
    simp only [isValidTaskTitle, sanitizeString, jsTrim_idem]
  by_cases hcond : 0 < (jsTrim a.title).length ∧ (jsTrim a.title).length ≤ 200
  · have hvt : isValidTaskTitle (sanitizeString a.title) = true := by
      rw [hval]
      exact decide_eq_true hcond
    constructor
    · constructor
      · intro herr
        simp [Tasks.create, hrl, hvt, hdesc] at herr
      · intro hn
        exact absurd hcond hn
    · intro _
      simp only [Tasks.create, hrl, hvt, hdesc]
      simp only [Bool.true_eq_false, if_false, Bool.not_true, Bool.and_false,
        Bool.false_eq_true, jsTruthy]
      rfl
  · have hvt : isValidTaskTitle (sanitizeString a.title) = false := by
      rw [hval]
      simpa using hcond
    constructor
    · constructor
      · intro _
        exact hcond
      · intro _
        simp [Tasks.create, hrl, hvt, hdesc]
    · intro hn
      exact absurd hn hcond

/-- C8 witness: a plain 1-character title passes the bounds and the
concrete create call succeeds. -/
theorem c8_create_title_validation_amended_witness :
    (0 < (jsTrim "a").length ∧ (jsTrim "a").length ≤ 200) ∧
    (Tasks.create (some 1) rlAllow c8args 5 exStore).isOk = true :=
  ⟨by decide,
   (c8_create_title_validation_amended 1 rlAllow c8args 5 exStore rfl rfl).2 (by decide)⟩

/-- C9: an update that supplies only the task's current status succeeds,
appends no activity record, and refreshes only updatedAt — the resulting
store equals the input store with just that timestamp touched. -/
theorem c9_noop_status_update : ∀ u rl i now s task,
    (rl "updateTask" u).ok = true →
    getTaskById s i = some task →
    task.userId = u →
    Tasks.update (some u) rl { id := i, status := some task.status } now s =
      .ok (i, onlyTouch i now s) := by
  intro u rl i now s task hrl hfind hown
  simp only [Tasks.update, hrl, hfind, hown]
  simp [performUpdate, baseUpdateData, updateTask, applyTaskPatch, jsTruthy, onlyTouch]

/-- C9 witness: the no-op status update applied to the concrete store. -/
theorem c9_noop_status_update_witness :
    Tasks.update (some 1) rlAllow { id := 0, status := some TaskStatus.todo } 5 exStore =
      .ok (0, onlyTouch 0 5 exStore) :=
  c9_noop_status_update 1 rlAllow 0 5 exStore exTask rfl rfl rfl

/-- C10: labels.removeFromTask on a task the caller owns always succeeds
and returns the composite key, and when no association row exists the
delete is a no-op on the store — it never fails with NotFound for a
missing association. -/
theorem c10_removeFromTask_idempotent : ∀ u rl taskId labelId s task,
    (rl "removeLabelFromTask" u).ok = true →
    getTaskById s taskId = some task →
    task.userId = u →
    Labels.removeFromTask (some u) rl taskId labelId s =
      .ok ((taskId, labelId), deleteTaskLabel s taskId labelId) ∧
    (taskLabelExists s taskId labelId = false →
      deleteTaskLabel s taskId labelId = s) := by
  intro u rl taskId labelId s task hrl hfind hown
  constructor
  · simp [Labels.removeFromTask, hrl, hfind, hown]
  · intro hex
    simp only [deleteTaskLabel]
    have hnone : (s.taskLabels.filter (fun tl => tl.taskId == taskId)).find?
        (fun tl => tl.labelId == labelId) = none := by
      rw [List.find?_eq_none]
      intro tl htl hc
      have h2 : taskLabelExists s taskId labelId = true := by
        simp only [taskLabelExists, List.any_eq_true]
        exact ⟨tl, htl, hc⟩
      rw [hex] at h2
      exact Bool.false_ne_true h2
    rw [hnone]

/-- C10 witness: removing a never-added label from the concrete task
returns the composite key and leaves the store unchanged. -/
theorem c10_removeFromTask_idempotent_witness :
    Labels.removeFromTask (some 1) rlAllow 0 9 exStore =
      .ok ((0, 9), deleteTaskLabel exStore 0 9) ∧
    (taskLabelExists exStore 0 9 = false → deleteTaskLabel exStore 0 9 = exStore) :=
  c10_removeFromTask_idempotent 1 rlAllow 0 9 exStore exTask rfl rfl rfl

end Todo
